import Mathlib

/-!
# Verification of the chat client (`script.js`)

A shallow embedding of the conversation-state manager, relay client and
contrast auto-correction routine of the browser chat client, together with
proofs of the specified properties.

Modelling conventions:
* JavaScript numbers appearing in the color code are modelled as follows:
  `parseInt` results are `Option ℤ` (`none` = `NaN`), and color arithmetic is
  carried out over `ℝ` (the idealisation of the IEEE doubles of the source).
* JavaScript values stored in messages and response bodies are modelled by a
  `Json` inductive type; `Option Json` models a possibly-`undefined` value.
* `localStorage` for the history key is modelled by `Option StoredHistory`:
  `none` is an absent record, and `StoredHistory` abstracts the raw string by
  its `JSON.parse` outcome (the empty string, a string on which `JSON.parse`
  throws, valid JSON that is not an array, or an array of message records).
  `JSON.stringify`/`JSON.parse` round-trip the persisted message records
  faithfully, which this abstraction builds in.
-/

namespace LorealChat

/-! ## JSON values -/

/-- A parsed JSON / JavaScript value, used for message contents and for the
response bodies returned by the relay or the direct endpoint. -/
inductive Json where
  | null : Json
  | bool (b : Bool) : Json
  | num (q : ℚ) : Json
  | str (s : String) : Json
  | arr (xs : List Json) : Json
  | obj (kvs : List (String × Json)) : Json

/-- JavaScript truthiness of a `Json` value (`null`, `false`, `0` and the
empty string are falsy; arrays and objects are always truthy). -/
def truthy : Json → Bool
  | .null => false
  | .bool b => b
  | .num q => q != 0
  | .str s => s != ""
  | .arr _ => true
  | .obj _ => true

/-- Property access `j?.k`: a lookup in an object, `undefined` (`none`) on any
other value.  Parsed JSON objects have unique keys, so the first match is the
match. -/
def getField (j : Json) (k : String) : Option Json :=
  match j with
  | .obj kvs => (kvs.find? (fun kv => kv.1 == k)).map (·.2)
  | _ => none

/-- Index access `j?.[i]`: array indexing, string indexing (a one-character
string), or the string-keyed property on an object; `undefined` otherwise. -/
def getIndex (j : Json) (i : ℕ) : Option Json :=
  match j with
  | .arr xs => xs.get? i
  | .obj kvs => (kvs.find? (fun kv => kv.1 == toString i)).map (·.2)
  | .str s => (s.data.get? i).map (fun c => Json.str (String.mk [c]))
  | _ => none

/-! ## Conversation store -/

/-- The constant system directive placed at entry zero of every transcript
(`systemPrompt` in `script.js`; the exact wording is irrelevant to every
property proved below, so the constant is kept abstract-but-fixed here as the
leading fragment of the source text). -/
def systemPrompt : String :=
  "You are a helpful assistant that ONLY answers questions about L'Oréal products, routines, product recommendations, ingredients, and beauty-related topics associated with L'Oréal brands."

/-- A chat message: `{ role, content, timestamp? }`.  The `timestamp` field is
absent (`none`) on the system message and present (epoch milliseconds) on
user/assistant messages pushed by the submit handler. -/
structure Message where
  role : String
  content : Json
  timestamp : Option ℤ

/-- `messages[0]` as created at page load. -/
def systemMessage : Message :=
  ⟨"system", Json.str systemPrompt, none⟩

/-- The `JSON.parse` outcome of the raw string stored under
`loreal_chat_history_v1`.  `empty` is the empty string (falsy, so `loadHistory`
returns before parsing); `notJson` is a non-empty string on which `JSON.parse`
throws; `nonArray` is valid JSON that is not an array (e.g. a JSON object);
`arrayOf ms` is a JSON array of message records. -/
inductive StoredHistory where
  | empty : StoredHistory
  | notJson : StoredHistory
  | nonArray : StoredHistory
  | arrayOf (ms : List Message) : StoredHistory

/-- The value at the history key; `none` models an absent record. -/
abbrev Storage := Option StoredHistory

/-- `loadHistory()`: returns the updated storage and the function result
(`none` = JS `null`).  An absent or empty raw value returns early (`!raw`);
a `JSON.parse` exception removes the record (the `catch` branch); a parsed
non-array returns `null` with the record left in place; an array is returned
as is. -/
def loadHistory : Storage → Storage × Option (List Message)
  | none => (none, none)
  | some .empty => (some .empty, none)
  | some .notJson => (none, none)
  | some .nonArray => (some .nonArray, none)
  | some (.arrayOf ms) => (some (.arrayOf ms), some ms)

/-- `saveHistory()`: persists the subsequence of `messages` with role `user`
or `assistant` (the system prompt is excluded) under the history key. -/
def saveHistory (messages : List Message) (_st : Storage) : Storage :=
  some (.arrayOf (messages.filter (fun m => m.role == "user" || m.role == "assistant")))

/-- The restore-at-load logic of `script.js`: `loadHistory()`, then either
`messages = [system, ...restored]` (when `restored && restored.length`) or the
initial `[system]` transcript plus an ephemeral greeting bubble.  Returns
`(storage, transcript, greeting shown?)`; the greeting is only rendered, never
appended to `messages` nor persisted. -/
def initChat (st : Storage) : Storage × List Message × Bool :=
  match loadHistory st with
  | (st', some ms) =>
      if ms.isEmpty then (st', [systemMessage], true)
      else (st', systemMessage :: ms, false)
  | (st', none) => (st', [systemMessage], true)

/-- `clearHistory()`: removes the persisted record, resets the transcript to
the system message only, and shows a fresh (non-persisted) greeting. -/
def clearHistory (_st : Storage) (_messages : List Message) :
    Storage × List Message × Bool :=
  (none, [systemMessage], true)

/-! ## Relay client: payload and reply extraction -/

/-- An outbound message: only `role` and `content` survive
(`messages.map(m => ({ role: m.role, content: m.content }))`). -/
structure ApiMessage where
  role : String
  content : Json

/-- The outbound request body `{ messages: [...] }`. -/
structure Payload where
  messages : List ApiMessage

/-- `apiMessages`: strip every field but `role` and `content`. -/
def apiMessages (ms : List Message) : List ApiMessage :=
  ms.map (fun m => ⟨m.role, m.content⟩)

/-- The payload `{ messages: apiMessages }` sent to the worker (and, on the
fallback path, to the direct endpoint). -/
def buildPayload (ms : List Message) : Payload :=
  ⟨apiMessages ms⟩

/-- The fixed fallback reply text. -/
def fallbackReply : String := "Sorry, I could not get an answer."

/-- `data?.choices?.[0]?.message?.content` on a parsed response body. -/
def extractContent (data : Json) : Option Json :=
  (((getField data "choices").bind (fun c => getIndex c 0)).bind
    (fun c => getField c "message")).bind
    (fun m => getField m "content")

/-- `data?.choices?.[0]?.message?.content || 'Sorry, I could not get an
answer.'`: the extracted content if truthy, else the fallback string. -/
def replyOf (data : Json) : Json :=
  match extractContent data with
  | some v => if truthy v then v else Json.str fallbackReply
  | none => Json.str fallbackReply

/-! ## The submit handler -/

/-- JavaScript `String.prototype.trim` over the character list. -/
def trimChars (cs : List Char) : List Char :=
  ((cs.dropWhile Char.isWhitespace).reverse.dropWhile Char.isWhitespace).reverse

/-- `String.prototype.trim`. -/
def trimString (s : String) : String :=
  ⟨trimChars s.data⟩

/-- The configuration in scope for the submit handler: `WORKER_URL` and
`OPENAI_API_KEY`, each possibly `undefined`. -/
structure Config where
  workerUrl : Option String
  openaiKey : Option String

/-- The placeholder worker URL that the handler refuses to contact. -/
def placeholderWorkerUrl : String := "https://your-worker.example.workers.dev"

/-- The placeholder API key that the fallback path refuses to use. -/
def placeholderApiKey : String := "REPLACE_WITH_YOUR_OPENAI_KEY"

/-- The fixed direct-endpoint URL of the dev-only fallback path. -/
def openaiUrl : String := "https://api.openai.com/v1/chat/completions"

/-- `typeof WORKER_URL !== 'undefined' && WORKER_URL && WORKER_URL !==
'https://your-worker.example.workers.dev'`. -/
def workerUrlConfigured (c : Config) : Bool :=
  match c.workerUrl with
  | none => false
  | some u => u != "" && u != placeholderWorkerUrl

/-- `typeof OPENAI_API_KEY !== 'undefined' && OPENAI_API_KEY &&
OPENAI_API_KEY !== 'REPLACE_WITH_YOUR_OPENAI_KEY'`. -/
def apiKeyConfigured (c : Config) : Bool :=
  match c.openaiKey with
  | none => false
  | some k => k != "" && k != placeholderApiKey

/-- What the submit handler leaves in the loading bubble / does overall. -/
inductive Outcome where
  | ignored : Outcome
  | replied (reply : Json) : Outcome
  | errorShown (msg : String) : Outcome
  | configMissing : Outcome

/-- The HTTP response observed by whichever `fetch` the handler performs. -/
structure HttpResponse where
  ok : Bool
  status : ℕ
  statusText : String
  body : Json

/-- The observable result of one submit: the transcript, the storage, the UI
outcome, and the URL fetched (`none` when no request was issued). -/
structure SubmitResult where
  messages : List Message
  storage : Storage
  outcome : Outcome
  fetchUrl : Option String

/-- The `chatForm` submit handler of `script.js`, parametrised by the HTTP
response the (single) network call would observe.  It trims the input and
returns early when empty; pushes and persists the user message; then either
posts to the worker (when `WORKER_URL` is configured and not the placeholder),
posts directly to the completion API (when only an API key is configured), or
shows the configuration-missing message.  A non-ok response throws
`Worker error: ${status} ${statusText}` (resp. `OpenAI error: ...`), which the
`catch` renders as `'Error: ' + message` without touching the transcript; an
ok response appends and persists the assistant reply. -/
def handleSubmit (cfg : Config) (input : String) (userTs assistantTs : ℤ)
    (resp : HttpResponse) (msgs : List Message) (st : Storage) : SubmitResult :=
  let text := trimString input
  if text = "" then ⟨msgs, st, .ignored, none⟩
  else
    let msgs1 := msgs ++ [⟨"user", Json.str text, some userTs⟩]
    let st1 := saveHistory msgs1 st
    if workerUrlConfigured cfg then
      let url := cfg.workerUrl.getD ""
      if resp.ok then
        let reply := replyOf resp.body
        let msgs2 := msgs1 ++ [⟨"assistant", reply, some assistantTs⟩]
        ⟨msgs2, saveHistory msgs2 st1, .replied reply, some url⟩
      else
        ⟨msgs1, st1,
          .errorShown ("Error: " ++ "Worker error: " ++ toString resp.status ++ " " ++ resp.statusText),
          some url⟩
    else if apiKeyConfigured cfg then
      if resp.ok then
        let reply := replyOf resp.body
        let msgs2 := msgs1 ++ [⟨"assistant", reply, some assistantTs⟩]
        ⟨msgs2, saveHistory msgs2 st1, .replied reply, some openaiUrl⟩
      else
        ⟨msgs1, st1,
          .errorShown ("Error: " ++ "OpenAI error: " ++ toString resp.status ++ " " ++ resp.statusText),
          some openaiUrl⟩
    else
      ⟨msgs1, st1, .configMissing, none⟩

/-! ## ColorMath: hex parsing and conversion

`parseInt(s, 16)` is modelled by `parseIntHex` over the character list:
leading whitespace is skipped, an optional sign and an optional `0x`/`0X`
prefix are consumed, then the longest prefix of hexadecimal digits is read;
no digit at all yields `NaN` (`none`).  Results are idealised as exact
integers. -/

/-- The numeric value of one hexadecimal digit character, `none` otherwise. -/
def hexDigitVal? (c : Char) : Option ℕ :=
  if 48 ≤ c.toNat ∧ c.toNat ≤ 57 then some (c.toNat - 48)
  else if 97 ≤ c.toNat ∧ c.toNat ≤ 102 then some (c.toNat - 87)
  else if 65 ≤ c.toNat ∧ c.toNat ≤ 70 then some (c.toNat - 55)
  else none

/-- Accumulate the value of a run of hexadecimal digit characters. -/
def hexCore (cs : List Char) : ℕ :=
  cs.foldl (fun a c => 16 * a + (hexDigitVal? c).getD 0) 0

/-- Strip the optional `0x`/`0X` prefix that `parseInt` accepts for radix
16. -/
def strip0x : List Char → List Char
  | '0' :: 'x' :: r => r
  | '0' :: 'X' :: r => r
  | cs => cs

/-- The unsigned part of `parseInt(·, 16)`: strip an optional `0x`/`0X`
prefix, then read the longest run of hex digits; `none` when the run is
empty. -/
def parseIntHexCore (cs : List Char) : Option ℕ :=
  let ds := (strip0x cs).takeWhile (fun c => (hexDigitVal? c).isSome)
  if ds.isEmpty then none else some (hexCore ds)

/-- The optional sign accepted by `parseInt` (after whitespace). -/
def parseIntHexSigned : List Char → Option ℤ
  | '-' :: r => (parseIntHexCore r).map (fun n => -(n : ℤ))
  | '+' :: r => (parseIntHexCore r).map (fun n => (n : ℤ))
  | cs => (parseIntHexCore cs).map (fun n => (n : ℤ))

/-- `parseInt(s, 16)` (`none` = `NaN`): skip leading whitespace, then an
optional sign, an optional `0x` prefix, and the longest run of hex digits. -/
def parseIntHex (cs : List Char) : Option ℤ :=
  parseIntHexSigned (cs.dropWhile Char.isWhitespace)

/-- `String.prototype.replace('#','')`: remove the first `'#'` only. -/
def replaceFirstHash : List Char → List Char
  | [] => []
  | c :: r => if c = '#' then r else c :: replaceFirstHash r

/-- JavaScript `ToInt32`: reduce an (idealised exact) number into
`[-2^31, 2^31)`; `ToInt32 NaN = 0` is handled at the use sites. -/
def toInt32 (n : ℤ) : ℤ := (n + 2 ^ 31) % 2 ^ 32 - 2 ^ 31

/-- `n >> k` on an int32 value: arithmetic (floor) shift right. -/
def jsShr (n : ℤ) (k : ℕ) : ℤ := n / 2 ^ k

/-- `n & 255` on an int32 value: the low byte, i.e. `n mod 256`. -/
def jsAnd255 (n : ℤ) : ℤ := n % 256

/-- `hexToRgb(hex)`: strip the first `'#'` and trim; a three-character form
expands each nibble by duplication (each channel `parseInt(h[i]+h[i], 16)`,
possibly `NaN`); otherwise the whole string is parsed as one number and the
channels are extracted with `>> 16 & 255`, `>> 8 & 255`, `& 255` (the int32
coercion maps `NaN` to `0`, so these channels are never `NaN`). -/
def hexToRgb (hex : String) : List (Option ℤ) :=
  let h := trimChars (replaceFirstHash hex.data)
  let bigint := parseIntHex h
  if h.length = 3 then
    [parseIntHex [h.getD 0 ' ', h.getD 0 ' '],
     parseIntHex [h.getD 1 ' ', h.getD 1 ' '],
     parseIntHex [h.getD 2 ' ', h.getD 2 ' ']]
  else
    let b32 := toInt32 (bigint.getD 0)
    [some (jsAnd255 (jsShr b32 16)), some (jsAnd255 (jsShr b32 8)), some (jsAnd255 b32)]

/-- The lowercase hexadecimal digit character for `d < 16`. -/
def hexDigitChar (d : ℕ) : Char :=
  if d < 10 then Char.ofNat (48 + d) else Char.ofNat (87 + d)

/-- Helper for `natToHexChars`: structural recursion on a fuel bound (the
number itself bounds the digit count, so the fuel never runs out). -/
def natToHexCharsAux : ℕ → ℕ → List Char
  | 0, _ => []
  | fuel + 1, n =>
    if n < 16 then [hexDigitChar n]
    else natToHexCharsAux fuel (n / 16) ++ [hexDigitChar (n % 16)]

/-- `Number.prototype.toString(16)` for a nonnegative integer: its base-16
digit characters, lowercase. -/
def natToHexChars (n : ℕ) : List Char := natToHexCharsAux (n + 1) n

/-- `v.toString(16)` for an (idealised) integer channel value; `NaN` prints as
`"NaN"`. -/
def jsNumToHexChars : Option ℤ → List Char
  | none => ['N', 'a', 'N']
  | some n => if n < 0 then '-' :: natToHexChars n.natAbs else natToHexChars n.toNat

/-- `String.prototype.padStart(2, '0')`. -/
def padStart2 (cs : List Char) : List Char :=
  if cs.length < 2 then List.replicate (2 - cs.length) '0' ++ cs else cs

/-- `rgbToHex([r,g,b])`: `'#' + [r,g,b].map(v => v.toString(16).padStart(2,'0')).join('')`. -/
def rgbToHex (rgb : List (Option ℤ)) : String :=
  ⟨'#' :: (rgb.map (fun v => padStart2 (jsNumToHexChars v))).flatten⟩

/-! ## ColorMath: real-valued routines -/

/-- `Math.round`: round half toward positive infinity. -/
noncomputable def jsRound (x : ℝ) : ℤ := ⌊x + 1 / 2⌋

/-- `clamp(v)` with the default bounds: `Math.max(0, Math.min(255, Math.round(v)))`. -/
noncomputable def clamp (v : ℝ) : ℤ := max 0 (min 255 (jsRound v))

/-- One channel of `lerpColor`: `clamp(a + (b - a) * t)`, with `NaN`
propagation (`Math.round`, `Math.min` and `Math.max` all return `NaN` on
`NaN`). -/
noncomputable def lerpChannel (a b : Option ℤ) (t : ℝ) : Option ℤ :=
  match a, b with
  | some a, some b => some (clamp ((a : ℝ) + ((b : ℝ) - (a : ℝ)) * t))
  | _, _ => none

/-- `lerpColor(hexA, hexB, t)`: per-channel linear interpolation of the two
parsed colors, re-encoded as a hex string.  `hexToRgb` always returns exactly
three channels, so the catch-all branch is unreachable. -/
noncomputable def lerpColor (hexA hexB : String) (t : ℝ) : String :=
  match hexToRgb hexA, hexToRgb hexB with
  | [a0, a1, a2], [b0, b1, b2] =>
      rgbToHex [lerpChannel a0 b0 t, lerpChannel a1 b1 t, lerpChannel a2 b2 t]
  | _, _ => rgbToHex [none, none, none]

/-- `darkenTowardsBlack(hex, step)`: move the color toward `#000000` by the
fraction `step`. -/
noncomputable def darkenTowardsBlack (hex : String) (step : ℝ) : String :=
  lerpColor hex "#000000" step

open Classical in
/-- The per-channel WCAG gamma correction applied by `relativeLuminance`:
linear below `0.03928`, power curve above. -/
noncomputable def gammaCorrect (c : ℝ) : ℝ :=
  if c ≤ 0.03928 then c / 12.92 else ((c + 0.055) / 1.055) ^ (2.4 : ℝ)

/-- `relativeLuminance(rgb)`: the WCAG weighted sum over the
gamma-corrected, `/255`-normalised channels; `NaN` (`none`) as soon as any
channel is `NaN` (every arithmetic operation of the source propagates it). -/
noncomputable def relativeLuminance : List (Option ℤ) → Option ℝ
  | [some r, some g, some b] =>
      some (0.2126 * gammaCorrect ((r : ℝ) / 255) + 0.7152 * gammaCorrect ((g : ℝ) / 255)
        + 0.0722 * gammaCorrect ((b : ℝ) / 255))
  | _ => none

/-- A JavaScript number: `NaN` or an (idealised) real. -/
inductive JsNum where
  | nan : JsNum
  | num (x : ℝ) : JsNum

/-- `contrastRatio(hexA, hexB)`: `(L1 + 0.05) / (L2 + 0.05)` over the larger
and smaller relative luminances.  The surrounding `try`/`catch` returns `null`
(`none`) only when the body throws; on string inputs no operation of the body
can throw, so the result is always `some` — `NaN` luminances propagate through
`Math.max`/`Math.min` and the division into a `NaN` result instead. -/
noncomputable def contrastRatio (hexA hexB : String) : Option JsNum :=
  some (match relativeLuminance (hexToRgb hexA), relativeLuminance (hexToRgb hexB) with
    | some a, some b => JsNum.num ((max a b + 0.05) / (min a b + 0.05))
    | _, _ => JsNum.nan)

/-! ## ContrastCorrector -/

/-- `contrastRatio(fg, bg) || 0` as used by `autoFixContrast`: `null` and
`NaN` are falsy and become `0`; the number `0` is falsy and becomes the same
`0`. -/
noncomputable def ratioOrZero : Option JsNum → ℝ
  | some (JsNum.num x) => x
  | _ => 0

/-- The relative luminance of a hex color string, with `0` standing in for the
`NaN` case (used only to state monotonicity; the theorems separately establish
that every color in a trace parses to real channels). -/
noncomputable def lumOrZero (s : String) : ℝ :=
  (relativeLuminance (hexToRgb s)).getD 0

open Classical in
/-- The darkening loop body of `autoFixContrast` (see the comment above
`autoFixPair`). -/
noncomputable def autoFixLoop (bg : String) (target : ℝ) (fg : String) (ratio : ℝ)
    (attempts : ℕ) : List String :=
  if h : ratio < target ∧ attempts < 24 then
    let step := min 1 (0.06 + (attempts : ℝ) * 0.02)
    let fg' := darkenTowardsBlack fg step
    let ratio' := ratioOrZero (contrastRatio fg' bg)
    fg' :: autoFixLoop bg target fg' ratio' (attempts + 1)
  else []
termination_by 24 - attempts
decreasing_by obtain ⟨-, h2⟩ := h; omega

/-- The darkening `while` loop of `autoFixContrast` for one
foreground/background pair, entered with `ratio = contrastRatio(fg, bg) || 0`
and `attempts = 0`, returning the successive foreground colors it writes:
while `ratio < target && attempts < 24`, darken by
`min(1, 0.06 + attempts*0.02)`, re-read the just-written value (the computed
style returns the string that was set, and the background variable is never
written), recompute `contrastRatio(fg, bg) || 0`, and increment `attempts`. -/
noncomputable def autoFixPair (fg bg : String) (target : ℝ) : List String :=
  autoFixLoop bg target fg (ratioOrZero (contrastRatio fg bg)) 0

/-! ## Theorems: conversation store -/

/-- C1: appending a user message and then an assistant message to the fresh
transcript, persisting after each append (as the submit handler does), and
re-initialising the store in a new session restores a transcript whose entry
zero is the constant system message and whose subsequent entries are exactly
those two messages, in order. -/
theorem append_persist_init_roundtrip (st : Storage) (mu ma : Message)
    (hu : mu.role = "user") (ha : ma.role = "assistant") :
    (initChat (saveHistory [systemMessage, mu, ma]
        (saveHistory [systemMessage, mu] st))).2.1 = [systemMessage, mu, ma] := by
  simp [initChat, saveHistory, loadHistory, systemMessage, hu, ha]

/-- Witness for C1 at a concrete user/assistant pair. -/
theorem append_persist_init_roundtrip_witness :
    (⟨"user", Json.str "What moisturizer suits dry skin?", some 1700000000000⟩ : Message).role = "user" ∧
    (⟨"assistant", Json.str "Try a ceramide night cream.", some 1700000000005⟩ : Message).role = "assistant" ∧
    (initChat (saveHistory [systemMessage,
        ⟨"user", Json.str "What moisturizer suits dry skin?", some 1700000000000⟩,
        ⟨"assistant", Json.str "Try a ceramide night cream.", some 1700000000005⟩]
      (saveHistory [systemMessage,
        ⟨"user", Json.str "What moisturizer suits dry skin?", some 1700000000000⟩] none))).2.1
      = [systemMessage,
        ⟨"user", Json.str "What moisturizer suits dry skin?", some 1700000000000⟩,
        ⟨"assistant", Json.str "Try a ceramide night cream.", some 1700000000005⟩] :=
  ⟨rfl, rfl, append_persist_init_roundtrip none _ _ rfl rfl⟩

/-- C2 counterexample: with a JSON object (valid JSON that is not an array)
persisted at the history key, `init()` does not remove the persisted record —
the corrupt value is still in storage afterwards, contrary to the claim. -/
theorem init_nonArray_not_purged :
    (initChat (some StoredHistory.nonArray)).1 = some StoredHistory.nonArray ∧
    (initChat (some StoredHistory.nonArray)).1 ≠ none := by
  exact ⟨rfl, by simp [initChat, loadHistory]⟩

/-- C2 (amended): for every corrupt persisted value — not valid JSON, or valid
JSON that is not an array — `init()` returns, without throwing, a fresh
transcript containing only the system message plus the ephemeral non-persisted
greeting; however the persisted record is removed only when `JSON.parse`
throws, while a valid-JSON non-array value is left in storage. -/
theorem init_corrupt_fresh (v : StoredHistory)
    (h : v = StoredHistory.notJson ∨ v = StoredHistory.nonArray) :
    (initChat (some v)).2.1 = [systemMessage] ∧ (initChat (some v)).2.2 = true ∧
    (v = StoredHistory.notJson → (initChat (some v)).1 = none) ∧
    (v = StoredHistory.nonArray → (initChat (some v)).1 = some v) := by
  rcases h with h | h <;> subst h
  · exact ⟨rfl, rfl, fun _ => rfl, fun h => StoredHistory.noConfusion h⟩
  · exact ⟨rfl, rfl, fun h => StoredHistory.noConfusion h, fun _ => rfl⟩

/-- Witness for C2 (amended) at the not-valid-JSON corrupt value. -/
theorem init_corrupt_fresh_witness :
    (initChat (some StoredHistory.notJson)).2.1 = [systemMessage] ∧
    (initChat (some StoredHistory.notJson)).1 = none :=
  ⟨(init_corrupt_fresh _ (Or.inl rfl)).1,
   (init_corrupt_fresh _ (Or.inl rfl)).2.2.1 rfl⟩

/-- C7: `clear()` removes the persisted history record, resets the transcript
to the fixed system message only, and only shows the fresh greeting without
persisting it: re-initialising from the cleared storage yields the fresh
transcript again. -/
theorem clearHistory_spec (st : Storage) (msgs : List Message) :
    (clearHistory st msgs).1 = none ∧
    (clearHistory st msgs).2.1 = [systemMessage] ∧
    (clearHistory st msgs).2.2 = true ∧
    (initChat (clearHistory st msgs).1).2.1 = [systemMessage] :=
  ⟨rfl, rfl, rfl, rfl⟩

/-! ## Theorems: relay client -/

/-- C5: `buildPayload` produces `{messages: ...}` with exactly one entry per
transcript message, in the same order, each carrying exactly the `role` and
`content` of the corresponding message; the `ApiMessage` record has no other
field, so timestamps and any extra fields are stripped. -/
theorem buildPayload_strips_to_role_content (ms : List Message) :
    (buildPayload ms).messages.length = ms.length ∧
    ∀ i : ℕ,
      ((buildPayload ms).messages[i]?.map ApiMessage.role
          = (ms[i]?.map Message.role)) ∧
      ((buildPayload ms).messages[i]?.map ApiMessage.content
          = (ms[i]?.map Message.content)) := by
  refine ⟨by simp [buildPayload, apiMessages], fun i => ?_⟩
  constructor <;>
    · simp only [buildPayload, apiMessages, List.getElem?_map]
      cases ms[i]? <;> rfl

/-- C6 counterexample: an HTTP-success body in which
`choices[0].message.content` is present but equal to the empty string — the
extraction substitutes the fallback string instead of returning the present
content, so substitution is not limited to an absent field path. -/
theorem reply_present_empty_content :
    extractContent (Json.obj [("choices", Json.arr [Json.obj [("message",
        Json.obj [("content", Json.str "")])]])]) = some (Json.str "") ∧
    replyOf (Json.obj [("choices", Json.arr [Json.obj [("message",
        Json.obj [("content", Json.str "")])]])]) = Json.str fallbackReply ∧
    Json.str fallbackReply ≠ Json.str "" := by
  refine ⟨rfl, rfl, fun h => ?_⟩
  injection h with h
  exact absurd h (by decide)

/-- C6 (amended): on an HTTP-success body, `send` returns the string at
`choices[0].message.content` when that field path is present with a non-empty
string value, and returns the fixed fallback string when the field path is
absent; a present-but-falsy value (such as the empty string) also yields the
fallback. -/
theorem reply_extraction (data : Json) (s : String) :
    (extractContent data = some (Json.str s) → s ≠ "" → replyOf data = Json.str s) ∧
    (extractContent data = none → replyOf data = Json.str fallbackReply) := by
  constructor
  · intro h hs
    simp [replyOf, h, truthy, hs]
  · intro h
    simp [replyOf, h]

/-- Witness for C6 (amended) on the two bodies named by the specification. -/
theorem reply_extraction_witness :
    replyOf (Json.obj [("choices", Json.arr [Json.obj [("message",
        Json.obj [("content", Json.str "Use X")])]])]) = Json.str "Use X" ∧
    replyOf (Json.obj []) = Json.str fallbackReply :=
  ⟨(reply_extraction _ "Use X").1 rfl (by decide),
   (reply_extraction (Json.obj []) "").2 rfl⟩

/-- C9: whenever `choices[0].message.content` is present but falsy (the empty
string, `0`, `false` or `null`), the extraction substitutes the fixed fallback
string — the `||` substitution is not limited to an absent field path. -/
theorem reply_falsy_content_fallback (data : Json) (v : Json)
    (h : extractContent data = some v) (hv : truthy v = false) :
    replyOf data = Json.str fallbackReply := by
  simp [replyOf, h, hv]

/-- Witness for C9 with `content` present and equal to the (falsy) number 0. -/
theorem reply_falsy_content_fallback_witness :
    extractContent (Json.obj [("choices", Json.arr [Json.obj [("message",
        Json.obj [("content", Json.num 0)])]])]) = some (Json.num 0) ∧
    truthy (Json.num 0) = false ∧
    replyOf (Json.obj [("choices", Json.arr [Json.obj [("message",
        Json.obj [("content", Json.num 0)])]])]) = Json.str fallbackReply :=
  ⟨rfl, by decide, reply_falsy_content_fallback _ _ rfl (by decide)⟩

/-! ## Theorems: submit handler -/

/-- C8: whenever the send path — the relay worker or the direct (OpenAI
fallback) endpoint — answers a submission with a non-success HTTP status, the
handler fails with the thrown error message carrying the status code
(`Worker error: ...` on the relay path, `OpenAI error: ...` on the direct
path, rendered inline), and the transcript is not extended with an assistant
message for that attempt: only this submission\'s user message is appended,
and the persisted history is the one saved right after the user message. -/
theorem relay_error_no_assistant (cfg : Config) (input : String) (uts ats : ℤ)
    (resp : HttpResponse) (msgs : List Message) (st : Storage)
    (htext : trimString input ≠ "")
    (hsend : workerUrlConfigured cfg = true ∨ apiKeyConfigured cfg = true)
    (hok : resp.ok = false) :
    (handleSubmit cfg input uts ats resp msgs st).messages
        = msgs ++ [⟨"user", Json.str (trimString input), some uts⟩] ∧
    (handleSubmit cfg input uts ats resp msgs st).storage
        = saveHistory (msgs ++ [⟨"user", Json.str (trimString input), some uts⟩]) st ∧
    (handleSubmit cfg input uts ats resp msgs st).outcome
        = Outcome.errorShown ("Error: "
            ++ (if workerUrlConfigured cfg then "Worker error: " else "OpenAI error: ")
            ++ toString resp.status ++ " " ++ resp.statusText) := by
  by_cases hw : workerUrlConfigured cfg = true
  · simp [handleSubmit, htext, hw, hok]
  · have hw' : workerUrlConfigured cfg = false := by
      rcases Bool.eq_false_or_eq_true (workerUrlConfigured cfg) with h | h
      · exact absurd h hw
      · exact h
    have hk : apiKeyConfigured cfg = true := by
      rcases hsend with h | h
      · exact absurd h hw
      · exact h
    simp [handleSubmit, htext, hw', hk, hok]

/-- Witness for C8: a 502 from the direct endpoint (no worker URL configured,
an API key configured): the error carries the status and no assistant message
is appended. -/
theorem relay_error_no_assistant_witness :
    trimString "Hello" ≠ "" ∧
    apiKeyConfigured ⟨none, some "sk-test-key"⟩ = true ∧
    (⟨false, 502, "Bad Gateway", Json.obj []⟩ : HttpResponse).ok = false ∧
    (handleSubmit ⟨none, some "sk-test-key"⟩ "Hello" 1 2
        ⟨false, 502, "Bad Gateway", Json.obj []⟩ [systemMessage] none).messages
      = [systemMessage] ++ [⟨"user", Json.str (trimString "Hello"), some 1⟩] ∧
    (handleSubmit ⟨none, some "sk-test-key"⟩ "Hello" 1 2
        ⟨false, 502, "Bad Gateway", Json.obj []⟩ [systemMessage] none).outcome
      = Outcome.errorShown "Error: OpenAI error: 502 Bad Gateway" := by
  refine ⟨by decide, by decide, rfl, ?_, ?_⟩
  · exact (relay_error_no_assistant ⟨none, some "sk-test-key"⟩ "Hello" 1 2
      ⟨false, 502, "Bad Gateway", Json.obj []⟩ [systemMessage] none
      (by decide) (Or.inr (by decide)) rfl).1
  · rw [(relay_error_no_assistant ⟨none, some "sk-test-key"⟩ "Hello" 1 2
      ⟨false, 502, "Bad Gateway", Json.obj []⟩ [systemMessage] none
      (by decide) (Or.inr (by decide)) rfl).2.2]
    exact congrArg Outcome.errorShown (by decide)

/-- C10: when the configured worker URL equals the placeholder value, the
handler treats the relay as unconfigured: no request is ever issued to the
placeholder URL, and (for a non-empty input) it takes the direct-API path when
an API key is configured and the configuration-error path when not, issuing no
request at all in the latter case. -/
theorem placeholder_url_never_fetched (cfg : Config) (input : String)
    (uts ats : ℤ) (resp : HttpResponse) (msgs : List Message) (st : Storage)
    (hurl : cfg.workerUrl = some placeholderWorkerUrl) :
    (handleSubmit cfg input uts ats resp msgs st).fetchUrl ≠ some placeholderWorkerUrl ∧
    (trimString input ≠ "" → apiKeyConfigured cfg = true →
      (handleSubmit cfg input uts ats resp msgs st).fetchUrl = some openaiUrl) ∧
    (trimString input ≠ "" → apiKeyConfigured cfg = false →
      (handleSubmit cfg input uts ats resp msgs st).outcome = Outcome.configMissing ∧
      (handleSubmit cfg input uts ats resp msgs st).fetchUrl = none) := by
  have hw : workerUrlConfigured cfg = false := by
    simp [workerUrlConfigured, hurl]
  refine ⟨?_, ?_, ?_⟩
  · by_cases htext : trimString input = ""
    · simp [handleSubmit, htext]
    · rcases Bool.eq_false_or_eq_true (apiKeyConfigured cfg) with hk | hk <;>
        rcases Bool.eq_false_or_eq_true resp.ok with hok | hok <;>
          simp [handleSubmit, htext, hw, hk, hok, openaiUrl, placeholderWorkerUrl]
  · intro htext hk
    rcases Bool.eq_false_or_eq_true resp.ok with hok | hok <;>
      simp [handleSubmit, htext, hw, hk, hok]
  · intro htext hk
    simp [handleSubmit, htext, hw, hk]

/-- Witness for C10: placeholder worker URL with a configured key takes the
direct-API path. -/
theorem placeholder_url_never_fetched_witness :
    (⟨some placeholderWorkerUrl, some "sk-test"⟩ : Config).workerUrl
        = some placeholderWorkerUrl ∧
    (handleSubmit ⟨some placeholderWorkerUrl, some "sk-test"⟩ "Hello there" 3 4
        ⟨true, 200, "OK", Json.obj []⟩ [] none).fetchUrl = some openaiUrl :=
  ⟨rfl, (placeholder_url_never_fetched ⟨some placeholderWorkerUrl, some "sk-test"⟩
      "Hello there" 3 4 ⟨true, 200, "OK", Json.obj []⟩ [] none rfl).2.1
    (by decide) (by decide)⟩

/-! ## Theorems: ColorMath sentinel behavior -/

/-- C3 counterexample: `"zzzzzz"` is not a parseable hex color
(`parseInt` yields `NaN` on it), yet `contrastRatio("zzzzzz", "ffffff")`
returns the numeric ratio `21` — the `NaN` is coerced to `0` by the int32
shifts, so the color is silently treated as black and no `null` sentinel is
produced. -/
theorem contrastRatio_unparseable_counterexample :
    parseIntHex "zzzzzz".data = none ∧
    contrastRatio "zzzzzz" "ffffff" = some (JsNum.num 21) := by
  refine ⟨by decide, ?_⟩
  have h1 : hexToRgb "zzzzzz" = [some 0, some 0, some 0] := by decide
  have h2 : hexToRgb "ffffff" = [some 255, some 255, some 255] := by decide
  have g0 : gammaCorrect (((0 : ℤ) : ℝ) / 255) = 0 := by
    rw [gammaCorrect, if_pos] <;> norm_num
  have g1 : gammaCorrect (((255 : ℤ) : ℝ) / 255) = 1 := by
    have hb : ((((255 : ℤ) : ℝ)) / 255 + 0.055) / 1.055 = 1 := by norm_num
    rw [gammaCorrect, if_neg]
    · rw [hb, Real.one_rpow]
    · norm_num
  rw [contrastRatio, h1, h2]
  simp only [relativeLuminance, g0, g1]
  have hval : (max (0.2126 * 0 + 0.7152 * 0 + 0.0722 * 0)
        (0.2126 * 1 + 0.7152 * 1 + 0.0722 * 1) + 0.05)
      / (min (0.2126 * 0 + 0.7152 * 0 + 0.0722 * 0)
        (0.2126 * 1 + 0.7152 * 1 + 0.0722 * 1) + 0.05) = (21 : ℝ) := by
    rw [show (0.2126 * 0 + 0.7152 * 0 + 0.0722 * 0 : ℝ) = 0 by norm_num,
        show (0.2126 * 1 + 0.7152 * 1 + 0.0722 * 1 : ℝ) = 1 by norm_num]
    norm_num
  rw [hval]

/-- C3 (amended): for string inputs, `contrastRatio` never returns the `null`
sentinel: the `try` body cannot throw on strings, so the result is always a
JavaScript number — `NaN` exactly when one of the luminances is `NaN` (which
only happens for malformed three-character forms), and a spurious finite ratio
otherwise (malformed six-character forms parse to `NaN` and are coerced to
black by the int32 shifts). -/
theorem contrastRatio_never_null (hexA hexB : String) :
    (∃ v, contrastRatio hexA hexB = some v) ∧
    (contrastRatio hexA hexB = some JsNum.nan ↔
      relativeLuminance (hexToRgb hexA) = none ∨
      relativeLuminance (hexToRgb hexB) = none) := by
  refine ⟨⟨_, rfl⟩, ?_⟩
  rw [contrastRatio]
  rcases hA : relativeLuminance (hexToRgb hexA) with _ | a <;>
    rcases hB : relativeLuminance (hexToRgb hexB) with _ | b <;> simp

/-! ## Helper lemmas for the contrast corrector -/

theorem hexDigitVal?_lt (c : Char) (d : ℕ) (h : hexDigitVal? c = some d) : d < 16 := by
  rw [hexDigitVal?] at h
  split_ifs at h <;> cases h <;> omega

theorem hexDigitChar_val : ∀ d : ℕ, d < 16 → hexDigitVal? (hexDigitChar d) = some d := by
  decide

theorem hexDigitChar_props : ∀ d : ℕ, d < 16 →
    (hexDigitChar d).isWhitespace = false ∧ hexDigitChar d ≠ '-' ∧
    hexDigitChar d ≠ '+' ∧ hexDigitChar d ≠ 'x' ∧ hexDigitChar d ≠ 'X' := by
  decide

theorem dropWhile_eq_self_of {α : Type} (p : α → Bool) :
    ∀ cs : List α, (∀ c ∈ cs, p c = false) → cs.dropWhile p = cs
  | [], _ => rfl
  | c :: r, h => by
    rw [List.dropWhile_cons, h c (by simp)]
    simp

theorem takeWhile_eq_self_of {α : Type} (p : α → Bool) :
    ∀ cs : List α, (∀ c ∈ cs, p c = true) → cs.takeWhile p = cs
  | [], _ => rfl
  | c :: r, h => by
    rw [List.takeWhile_cons, h c (by simp)]
    simp [takeWhile_eq_self_of p r (fun x hx => h x (by simp [hx]))]

theorem trimChars_eq_self (cs : List Char) (h : ∀ c ∈ cs, c.isWhitespace = false) :
    trimChars cs = cs := by
  rw [trimChars, dropWhile_eq_self_of _ cs h,
    dropWhile_eq_self_of _ cs.reverse (fun c hc => h c (List.mem_reverse.mp hc)),
    List.reverse_reverse]

theorem padStart2_natToHexChars (n : ℕ) (h : n < 256) :
    padStart2 (natToHexChars n) = [hexDigitChar (n / 16), hexDigitChar (n % 16)] := by
  by_cases h16 : n < 16
  · have hd : n / 16 = 0 := Nat.div_eq_of_lt h16
    have hm : n % 16 = n := Nat.mod_eq_of_lt h16
    rw [natToHexChars]
    rw [show natToHexCharsAux (n + 1) n = [hexDigitChar n] from by
      simp [natToHexCharsAux, h16]]
    rw [padStart2]
    simp [hd, hm, show hexDigitChar 0 = '0' from by decide]
  · have hq : n / 16 < 16 := by omega
    obtain ⟨k, hk⟩ : ∃ k, n = k + 1 := ⟨n - 1, by omega⟩
    subst hk
    rw [natToHexChars]
    rw [show natToHexCharsAux (k + 1 + 1) (k + 1)
        = natToHexCharsAux (k + 1) ((k + 1) / 16) ++ [hexDigitChar ((k + 1) % 16)] from by
      simp [natToHexCharsAux, h16]]
    rw [show natToHexCharsAux (k + 1) ((k + 1) / 16) = [hexDigitChar ((k + 1) / 16)] from by
      simp [natToHexCharsAux, hq]]
    rw [padStart2]
    simp

theorem strip0x_eq_self (cs : List Char)
    (h : ∀ c ∈ cs, c ≠ 'x' ∧ c ≠ 'X') : strip0x cs = cs := by
  unfold strip0x
  split
  · rename_i r
    exact absurd rfl (h 'x' (by simp)).1
  · rename_i r
    exact absurd rfl (h 'X' (by simp)).2
  · rfl

theorem parseIntHexCore_all_digits (cs : List Char) (hne : cs ≠ [])
    (h : ∀ c ∈ cs, (hexDigitVal? c).isSome = true ∧ c ≠ '-' ∧ c ≠ '+' ∧
      c ≠ 'x' ∧ c ≠ 'X' ∧ c.isWhitespace = false) :
    parseIntHexCore cs = some (hexCore cs) := by
  simp only [parseIntHexCore]
  rw [strip0x_eq_self cs (fun c hc => ⟨(h c hc).2.2.2.1, (h c hc).2.2.2.2.1⟩),
    takeWhile_eq_self_of _ cs (fun c hc => (h c hc).1)]
  rcases cs with _ | ⟨c0, rest⟩
  · exact absurd rfl hne
  · simp

theorem parseIntHexSigned_all_digits (cs : List Char) (hne : cs ≠ [])
    (h : ∀ c ∈ cs, (hexDigitVal? c).isSome = true ∧ c ≠ '-' ∧ c ≠ '+' ∧
      c ≠ 'x' ∧ c ≠ 'X' ∧ c.isWhitespace = false) :
    parseIntHexSigned cs = some ((hexCore cs : ℕ) : ℤ) := by
  unfold parseIntHexSigned
  split
  · rename_i r
    exact absurd rfl (h '-' (by simp)).2.1
  · rename_i r
    exact absurd rfl (h '+' (by simp)).2.2.1
  · rw [parseIntHexCore_all_digits cs hne h]
    rfl

theorem parseIntHex_all_digits (cs : List Char) (hne : cs ≠ [])
    (h : ∀ c ∈ cs, (hexDigitVal? c).isSome = true ∧ c ≠ '-' ∧ c ≠ '+' ∧
      c ≠ 'x' ∧ c ≠ 'X' ∧ c.isWhitespace = false) :
    parseIntHex cs = some ((hexCore cs : ℕ) : ℤ) := by
  rw [parseIntHex, dropWhile_eq_self_of _ cs (fun c hc => (h c hc).2.2.2.2.2)]
  exact parseIntHexSigned_all_digits cs hne h

theorem parseIntHex_pair_range (c : Char) (v : ℤ)
    (h : parseIntHex [c, c] = some v) : 0 ≤ v ∧ v ≤ 255 := by
  rw [parseIntHex] at h
  rcases hw : c.isWhitespace with _ | _
  · -- not whitespace: dropWhile keeps the list
    rw [show List.dropWhile Char.isWhitespace [c, c] = [c, c] from by
      rw [List.dropWhile_cons, hw]; simp] at h
    have hstrip : strip0x [c, c] = [c, c] := by
      unfold strip0x
      split
      · rename_i r heq
        injection heq with hc1 heq2
        injection heq2 with hc2 heq3
        subst hc1
        exact absurd hc2 (by decide)
      · rename_i r heq
        injection heq with hc1 heq2
        injection heq2 with hc2 heq3
        subst hc1
        exact absurd hc2 (by decide)
      · rfl
    unfold parseIntHexSigned at h
    split at h
    · rename_i r heq
      injection heq with hc1 heq2
      subst hc1
      subst heq2
      rw [show parseIntHexCore ['-'] = none from rfl] at h
      simp at h
    · rename_i r heq
      injection heq with hc1 heq2
      subst hc1
      subst heq2
      rw [show parseIntHexCore ['+'] = none from rfl] at h
      simp at h
    · rcases hd : hexDigitVal? c with _ | d
      · -- not a hex digit: no digits are read off and the parse is NaN
        rw [parseIntHexCore, hstrip] at h
        rw [show List.takeWhile (fun x => (hexDigitVal? x).isSome) [c, c] = [] from by
          rw [List.takeWhile_cons, hd]; simp] at h
        simp at h
      · have hdlt := hexDigitVal?_lt c d hd
        rw [parseIntHexCore, hstrip,
          takeWhile_eq_self_of _ [c, c] (by
            intro x hx
            have hxc : x = c := by
              simp only [List.mem_cons, List.not_mem_nil, or_false] at hx
              rcases hx with hx | hx <;> exact hx
            rw [hxc, hd]
            rfl)] at h
        simp [hexCore, hd] at h
        omega
  · -- whitespace: both characters are dropped and nothing parses
    rw [show List.dropWhile Char.isWhitespace [c, c] = [] from by
      simp [List.dropWhile_cons, hw]] at h
    rw [show parseIntHexSigned [] = none from rfl] at h
    exact Option.noConfusion h

theorem hexToRgb_range (s : String) (v : ℤ) (h : some v ∈ hexToRgb s) :
    0 ≤ v ∧ v ≤ 255 := by
  simp only [hexToRgb] at h
  split at h
  · simp only [List.mem_cons, List.not_mem_nil, or_false] at h
    rcases h with h | h | h <;> exact parseIntHex_pair_range _ _ h.symm
  · simp only [List.mem_cons, List.not_mem_nil, or_false, Option.some.injEq] at h
    rcases h with h | h | h <;> subst h <;>
      · rw [jsAnd255]
        omega


theorem hexCore_six (e1 e2 e3 e4 e5 e6 : ℕ)
    (h1 : e1 < 16) (h2 : e2 < 16) (h3 : e3 < 16)
    (h4 : e4 < 16) (h5 : e5 < 16) (h6 : e6 < 16) :
    hexCore [hexDigitChar e1, hexDigitChar e2, hexDigitChar e3,
      hexDigitChar e4, hexDigitChar e5, hexDigitChar e6]
      = ((((e1 * 16 + e2) * 16 + e3) * 16 + e4) * 16 + e5) * 16 + e6 := by
  simp only [hexCore, List.foldl_cons, List.foldl_nil,
    hexDigitChar_val e1 h1, hexDigitChar_val e2 h2,
    hexDigitChar_val e3 h3, hexDigitChar_val e4 h4,
    hexDigitChar_val e5 h5, hexDigitChar_val e6 h6, Option.getD_some]
  ring

theorem sixDigit_channel_hi (e1 e2 e3 e4 e5 e6 : ℕ)
    (h1 : e1 < 16) (h2 : e2 < 16) (h3 : e3 < 16)
    (h4 : e4 < 16) (h5 : e5 < 16) (h6 : e6 < 16) :
    jsAnd255 (jsShr (toInt32
      ((((((e1 * 16 + e2) * 16 + e3) * 16 + e4) * 16 + e5) * 16 + e6 : ℕ) : ℤ)) 16)
      = ((16 * e1 + e2 : ℕ) : ℤ) := by
  rw [toInt32, jsShr, jsAnd255]
  push_cast
  omega

theorem sixDigit_channel_mid (e1 e2 e3 e4 e5 e6 : ℕ)
    (h1 : e1 < 16) (h2 : e2 < 16) (h3 : e3 < 16)
    (h4 : e4 < 16) (h5 : e5 < 16) (h6 : e6 < 16) :
    jsAnd255 (jsShr (toInt32
      ((((((e1 * 16 + e2) * 16 + e3) * 16 + e4) * 16 + e5) * 16 + e6 : ℕ) : ℤ)) 8)
      = ((16 * e3 + e4 : ℕ) : ℤ) := by
  rw [toInt32, jsShr, jsAnd255]
  push_cast
  omega

theorem sixDigit_channel_lo (e1 e2 e3 e4 e5 e6 : ℕ)
    (h1 : e1 < 16) (h2 : e2 < 16) (h3 : e3 < 16)
    (h4 : e4 < 16) (h5 : e5 < 16) (h6 : e6 < 16) :
    jsAnd255 (toInt32
      ((((((e1 * 16 + e2) * 16 + e3) * 16 + e4) * 16 + e5) * 16 + e6 : ℕ) : ℤ))
      = ((16 * e5 + e6 : ℕ) : ℤ) := by
  rw [toInt32, jsAnd255]
  push_cast
  omega

theorem hexToRgb_six_digits (e1 e2 e3 e4 e5 e6 : ℕ)
    (h1 : e1 < 16) (h2 : e2 < 16) (h3 : e3 < 16)
    (h4 : e4 < 16) (h5 : e5 < 16) (h6 : e6 < 16) :
    hexToRgb ⟨'#' :: [hexDigitChar e1, hexDigitChar e2, hexDigitChar e3,
        hexDigitChar e4, hexDigitChar e5, hexDigitChar e6]⟩
      = [some ((16 * e1 + e2 : ℕ) : ℤ), some ((16 * e3 + e4 : ℕ) : ℤ),
         some ((16 * e5 + e6 : ℕ) : ℤ)] := by
  have hall : ∀ c ∈ [hexDigitChar e1, hexDigitChar e2, hexDigitChar e3,
      hexDigitChar e4, hexDigitChar e5, hexDigitChar e6],
      (hexDigitVal? c).isSome = true ∧ c ≠ '-' ∧ c ≠ '+' ∧
      c ≠ 'x' ∧ c ≠ 'X' ∧ c.isWhitespace = false := by
    intro c hc
    simp only [List.mem_cons, List.not_mem_nil, or_false] at hc
    rcases hc with rfl | rfl | rfl | rfl | rfl | rfl <;>
      exact ⟨by rw [hexDigitChar_val _ (by omega)]; rfl,
        (hexDigitChar_props _ (by omega)).2.1,
        (hexDigitChar_props _ (by omega)).2.2.1,
        (hexDigitChar_props _ (by omega)).2.2.2.1,
        (hexDigitChar_props _ (by omega)).2.2.2.2,
        (hexDigitChar_props _ (by omega)).1⟩
  simp only [hexToRgb]
  rw [show replaceFirstHash ('#' :: [hexDigitChar e1, hexDigitChar e2, hexDigitChar e3,
      hexDigitChar e4, hexDigitChar e5, hexDigitChar e6])
    = [hexDigitChar e1, hexDigitChar e2, hexDigitChar e3,
      hexDigitChar e4, hexDigitChar e5, hexDigitChar e6] from by
    simp [replaceFirstHash]]
  rw [trimChars_eq_self _ (fun c hc => (hall c hc).2.2.2.2.2)]
  rw [parseIntHex_all_digits _ (by simp) hall]
  rw [if_neg (by simp)]
  rw [hexCore_six e1 e2 e3 e4 e5 e6 h1 h2 h3 h4 h5 h6, Option.getD_some,
    sixDigit_channel_hi e1 e2 e3 e4 e5 e6 h1 h2 h3 h4 h5 h6,
    sixDigit_channel_mid e1 e2 e3 e4 e5 e6 h1 h2 h3 h4 h5 h6,
    sixDigit_channel_lo e1 e2 e3 e4 e5 e6 h1 h2 h3 h4 h5 h6]

theorem hexToRgb_rgbToHex (r g b : ℤ)
    (hr0 : 0 ≤ r) (hr1 : r ≤ 255) (hg0 : 0 ≤ g) (hg1 : g ≤ 255)
    (hb0 : 0 ≤ b) (hb1 : b ≤ 255) :
    hexToRgb (rgbToHex [some r, some g, some b]) = [some r, some g, some b] := by
  have hnr : r.toNat < 256 := by omega
  have hng : g.toNat < 256 := by omega
  have hnb : b.toNat < 256 := by omega
  have hchars : rgbToHex [some r, some g, some b]
      = ⟨'#' :: [hexDigitChar (r.toNat / 16), hexDigitChar (r.toNat % 16),
          hexDigitChar (g.toNat / 16), hexDigitChar (g.toNat % 16),
          hexDigitChar (b.toNat / 16), hexDigitChar (b.toNat % 16)]⟩ := by
    rw [rgbToHex]
    simp only [List.map_cons, List.map_nil, jsNumToHexChars]
    rw [if_neg (by omega), if_neg (by omega), if_neg (by omega)]
    rw [padStart2_natToHexChars _ hnr, padStart2_natToHexChars _ hng,
      padStart2_natToHexChars _ hnb]
    rfl
  rw [hchars, hexToRgb_six_digits _ _ _ _ _ _ (by omega) (by omega) (by omega)
    (by omega) (by omega) (by omega)]
  have e1 : ((16 * (r.toNat / 16) + r.toNat % 16 : ℕ) : ℤ) = r := by
    push_cast
    omega
  have e2 : ((16 * (g.toNat / 16) + g.toNat % 16 : ℕ) : ℤ) = g := by
    push_cast
    omega
  have e3 : ((16 * (b.toNat / 16) + b.toNat % 16 : ℕ) : ℤ) = b := by
    push_cast
    omega
  rw [e1, e2, e3]

theorem clamp_mem (v : ℝ) : 0 ≤ clamp v ∧ clamp v ≤ 255 := by
  rw [clamp]
  exact ⟨le_max_left 0 _, max_le (by norm_num) (min_le_left _ _)⟩

theorem clamp_le_of_le_int (a : ℤ) (v : ℝ) (ha : 0 ≤ a) (hv : v ≤ (a : ℝ)) :
    clamp v ≤ a := by
  rw [clamp]
  refine max_le ha (le_trans (min_le_right _ _) ?_)
  rw [jsRound]
  have hmono : ⌊v + 1 / 2⌋ ≤ ⌊(a : ℝ) + 1 / 2⌋ := Int.floor_le_floor (by linarith)
  have hval : ⌊(a : ℝ) + 1 / 2⌋ = a := by
    rw [Int.floor_int_add]
    have : ⌊(1 : ℝ) / 2⌋ = 0 := by
      rw [Int.floor_eq_zero_iff]
      constructor <;> norm_num
    omega
  omega

theorem rpow_q_lower (x y : ℝ) (hx : 0 ≤ x) (hy : 0 ≤ y)
    (h : y ^ (5 : ℕ) ≤ x ^ (12 : ℕ)) : y ≤ x ^ (2.4 : ℝ) := by
  have h5 : ((y ^ (5 : ℕ) : ℝ)) ^ ((1 : ℝ) / 5) ≤ ((x ^ (12 : ℕ) : ℝ)) ^ ((1 : ℝ) / 5) :=
    Real.rpow_le_rpow (by positivity) h (by norm_num)
  have hyy : ((y ^ (5 : ℕ) : ℝ)) ^ ((1 : ℝ) / 5) = y := by
    rw [← Real.rpow_natCast y 5, ← Real.rpow_mul hy]
    norm_num
  have hxx : ((x ^ (12 : ℕ) : ℝ)) ^ ((1 : ℝ) / 5) = x ^ (2.4 : ℝ) := by
    rw [← Real.rpow_natCast x 12, ← Real.rpow_mul hx]
    norm_num
  rwa [hyy, hxx] at h5

theorem gammaCorrect_int_mono (v w : ℤ) (hv0 : 0 ≤ v) (hvw : v ≤ w) (hw255 : w ≤ 255) :
    gammaCorrect ((v : ℝ) / 255) ≤ gammaCorrect ((w : ℝ) / 255) := by
  have hv0' : (0 : ℝ) ≤ (v : ℝ) := by exact_mod_cast hv0
  have hvw' : (v : ℝ) ≤ (w : ℝ) := by exact_mod_cast hvw
  rw [gammaCorrect, gammaCorrect]
  by_cases hc1 : (v : ℝ) / 255 ≤ 0.03928 <;> by_cases hc2 : (w : ℝ) / 255 ≤ 0.03928
  · rw [if_pos hc1, if_pos hc2]
    gcongr
  · -- the channel crosses the gamma threshold: the integrality of the
    -- channels gives v ≤ 10 < 11 ≤ w, and the inequality between the linear
    -- value at 10 and the power value at 11 bridges the two branches
    rw [if_pos hc1, if_neg hc2]
    have hv10 : v ≤ 10 := by
      by_contra hcon
      push_neg at hcon
      have h11 : (11 : ℝ) ≤ (v : ℝ) := by exact_mod_cast hcon
      have := (div_le_iff (by norm_num : (0 : ℝ) < 255)).mp hc1
      linarith
    have hw11 : 11 ≤ w := by
      by_contra hcon
      push_neg at hcon
      have h10 : (w : ℝ) ≤ 10 := by exact_mod_cast (by omega : w ≤ 10)
      have : (w : ℝ) / 255 ≤ 0.03928 := by
        rw [div_le_iff (by norm_num : (0 : ℝ) < 255)]
        linarith
      exact hc2 this
    have hv10' : (v : ℝ) ≤ 10 := by exact_mod_cast hv10
    have hw11' : (11 : ℝ) ≤ (w : ℝ) := by exact_mod_cast hw11
    have key : ((10 : ℝ) / 255) / 12.92 ≤ (((11 : ℝ) / 255 + 0.055) / 1.055) ^ (2.4 : ℝ) := by
      have hxv : (((11 : ℝ) / 255 + 0.055) / 1.055) = 1001 / 10761 := by norm_num
      have hyv : ((10 : ℝ) / 255) / 12.92 = 50 / 16473 := by norm_num
      rw [hxv, hyv]
      refine rpow_q_lower _ _ (by norm_num) (by norm_num) ?_
      norm_num
    calc (v : ℝ) / 255 / 12.92 ≤ ((10 : ℝ) / 255) / 12.92 := by gcongr
      _ ≤ (((11 : ℝ) / 255 + 0.055) / 1.055) ^ (2.4 : ℝ) := key
      _ ≤ (((w : ℝ) / 255 + 0.055) / 1.055) ^ (2.4 : ℝ) := by
          refine Real.rpow_le_rpow (by positivity) (by gcongr) (by norm_num)
  · exact absurd (le_trans (show (v : ℝ) / 255 ≤ (w : ℝ) / 255 by gcongr) hc2) hc1
  · rw [if_neg hc1, if_neg hc2]
    refine Real.rpow_le_rpow ?_ (by gcongr) (by norm_num)
    have : (0 : ℝ) ≤ (v : ℝ) / 255 + 0.055 := by positivity
    positivity

theorem lum_sum_mono (r g b r' g' b' : ℤ)
    (hr'0 : 0 ≤ r') (hrr : r' ≤ r) (hr255 : r ≤ 255)
    (hg'0 : 0 ≤ g') (hgg : g' ≤ g) (hg255 : g ≤ 255)
    (hb'0 : 0 ≤ b') (hbb : b' ≤ b) (hb255 : b ≤ 255) :
    0.2126 * gammaCorrect ((r' : ℝ) / 255) + 0.7152 * gammaCorrect ((g' : ℝ) / 255)
      + 0.0722 * gammaCorrect ((b' : ℝ) / 255)
    ≤ 0.2126 * gammaCorrect ((r : ℝ) / 255) + 0.7152 * gammaCorrect ((g : ℝ) / 255)
      + 0.0722 * gammaCorrect ((b : ℝ) / 255) := by
  have h1 := gammaCorrect_int_mono r' r hr'0 hrr hr255
  have h2 := gammaCorrect_int_mono g' g hg'0 hgg hg255
  have h3 := gammaCorrect_int_mono b' b hb'0 hbb hb255
  linarith

theorem darkenTowardsBlack_spec (fg : String) (t : ℝ) (ht : 0 ≤ t)
    (r g b : ℤ) (hfg : hexToRgb fg = [some r, some g, some b]) :
    ∃ r' g' b' : ℤ,
      hexToRgb (darkenTowardsBlack fg t) = [some r', some g', some b'] ∧
      0 ≤ r' ∧ r' ≤ r ∧ 0 ≤ g' ∧ g' ≤ g ∧ 0 ≤ b' ∧ b' ≤ b ∧
      r' ≤ 255 ∧ g' ≤ 255 ∧ b' ≤ 255 := by
  obtain ⟨hr0, hr1⟩ := hexToRgb_range fg r (by rw [hfg]; simp)
  obtain ⟨hg0, hg1⟩ := hexToRgb_range fg g (by rw [hfg]; simp)
  obtain ⟨hb0, hb1⟩ := hexToRgb_range fg b (by rw [hfg]; simp)
  have hblack : hexToRgb "#000000" = [some 0, some 0, some 0] := by decide
  have hdark : darkenTowardsBlack fg t
      = rgbToHex [some (clamp ((r : ℝ) + (((0 : ℤ) : ℝ) - (r : ℝ)) * t)),
          some (clamp ((g : ℝ) + (((0 : ℤ) : ℝ) - (g : ℝ)) * t)),
          some (clamp ((b : ℝ) + (((0 : ℤ) : ℝ) - (b : ℝ)) * t))] := by
    rw [darkenTowardsBlack, lerpColor, hfg, hblack]
    rfl
  have hler : ∀ a : ℤ, 0 ≤ a → (a : ℝ) + (((0 : ℤ) : ℝ) - (a : ℝ)) * t ≤ (a : ℝ) := by
    intro a ha
    push_cast
    nlinarith [mul_nonneg (show (0 : ℝ) ≤ (a : ℝ) by exact_mod_cast ha) ht]
  refine ⟨clamp ((r : ℝ) + (((0 : ℤ) : ℝ) - (r : ℝ)) * t),
    clamp ((g : ℝ) + (((0 : ℤ) : ℝ) - (g : ℝ)) * t),
    clamp ((b : ℝ) + (((0 : ℤ) : ℝ) - (b : ℝ)) * t), ?_,
    (clamp_mem _).1, clamp_le_of_le_int r _ hr0 (hler r hr0),
    (clamp_mem _).1, clamp_le_of_le_int g _ hg0 (hler g hg0),
    (clamp_mem _).1, clamp_le_of_le_int b _ hb0 (hler b hb0),
    (clamp_mem _).2, (clamp_mem _).2, (clamp_mem _).2⟩
  rw [hdark]
  exact hexToRgb_rgbToHex _ _ _ (clamp_mem _).1 (clamp_mem _).2
    (clamp_mem _).1 (clamp_mem _).2 (clamp_mem _).1 (clamp_mem _).2

theorem lumOrZero_eval (s : String) (r g b : ℤ)
    (h : hexToRgb s = [some r, some g, some b]) :
    lumOrZero s = 0.2126 * gammaCorrect ((r : ℝ) / 255)
      + 0.7152 * gammaCorrect ((g : ℝ) / 255)
      + 0.0722 * gammaCorrect ((b : ℝ) / 255) := by
  rw [lumOrZero, h]
  simp [relativeLuminance]

theorem autoFixLoop_spec (bg : String) (target : ℝ) :
    ∀ n attempts, 24 - attempts ≤ n →
    ∀ fg ratio (r g b : ℤ), hexToRgb fg = [some r, some g, some b] →
      (autoFixLoop bg target fg ratio attempts).length ≤ 24 - attempts ∧
      List.Chain' (fun s t => lumOrZero t ≤ lumOrZero s)
        (fg :: autoFixLoop bg target fg ratio attempts) ∧
      ∀ s ∈ autoFixLoop bg target fg ratio attempts,
        ∃ r' g' b' : ℤ, hexToRgb s = [some r', some g', some b'] := by
  intro n
  induction n with
  | zero =>
      intro attempts hle fg ratio r g b hfg
      have hcond : ¬(ratio < target ∧ attempts < 24) := by
        rintro ⟨-, hlt⟩
        omega
      rw [autoFixLoop, dif_neg hcond]
      exact ⟨by simp, by simp, by simp⟩
  | succ n ih =>
      intro attempts hle fg ratio r g b hfg
      by_cases hcond : ratio < target ∧ attempts < 24
      · have hunf : autoFixLoop bg target fg ratio attempts
            = darkenTowardsBlack fg (min 1 (0.06 + (attempts : ℝ) * 0.02))
              :: autoFixLoop bg target
                  (darkenTowardsBlack fg (min 1 (0.06 + (attempts : ℝ) * 0.02)))
                  (ratioOrZero (contrastRatio
                    (darkenTowardsBlack fg (min 1 (0.06 + (attempts : ℝ) * 0.02))) bg))
                  (attempts + 1) := by
          rw [autoFixLoop, dif_pos hcond]
        have hstep : (0 : ℝ) ≤ min 1 (0.06 + (attempts : ℝ) * 0.02) := by
          refine le_min (by norm_num) (by positivity)
        obtain ⟨r', g', b', hfg', hr'0, hr'r, hg'0, hg'g, hb'0, hb'b,
            hr'255, hg'255, hb'255⟩ :=
          darkenTowardsBlack_spec fg _ hstep r g b hfg
        obtain ⟨ihlen, ihchain, ihmem⟩ :=
          ih (attempts + 1) (by omega)
            (darkenTowardsBlack fg (min 1 (0.06 + (attempts : ℝ) * 0.02)))
            (ratioOrZero (contrastRatio
              (darkenTowardsBlack fg (min 1 (0.06 + (attempts : ℝ) * 0.02))) bg))
            r' g' b' hfg'
        obtain ⟨hfr0, hfr1⟩ := hexToRgb_range fg r (by rw [hfg]; simp)
        obtain ⟨hfg0, hfg1⟩ := hexToRgb_range fg g (by rw [hfg]; simp)
        obtain ⟨hfb0, hfb1⟩ := hexToRgb_range fg b (by rw [hfg]; simp)
        refine ⟨?_, ?_, ?_⟩
        · rw [hunf]
          have hl : (autoFixLoop bg target
              (darkenTowardsBlack fg (min 1 (0.06 + (attempts : ℝ) * 0.02)))
              (ratioOrZero (contrastRatio
                (darkenTowardsBlack fg (min 1 (0.06 + (attempts : ℝ) * 0.02))) bg))
              (attempts + 1)).length ≤ 24 - (attempts + 1) := ihlen
          simp only [List.length_cons]
          omega
        · rw [hunf, List.chain'_cons]
          refine ⟨?_, ihchain⟩
          rw [lumOrZero_eval _ _ _ _ hfg', lumOrZero_eval _ _ _ _ hfg]
          exact lum_sum_mono r g b r' g' b' hr'0 hr'r hfr1 hg'0 hg'g hfg1
            hb'0 hb'b hfb1
        · rw [hunf]
          intro s hs
          rcases List.mem_cons.mp hs with hs | hs
          · exact ⟨r', g', b', hs ▸ hfg'⟩
          · exact ihmem s hs
      · rw [autoFixLoop, dif_neg hcond]
        exact ⟨by simp, by simp, by simp⟩

/-- C4: for every foreground/background pair processed by `autoFixContrast`,
the darkening loop executes at most 24 iterations, and across its iterations
the relative luminance of the foreground color is monotonically
non-increasing — every step moves the color toward black, never away from it
(and every intermediate foreground again parses to real RGB channels). -/
theorem autoFix_pair_bounded_monotone (fg bg : String) (target : ℝ)
    (r g b : ℤ) (hfg : hexToRgb fg = [some r, some g, some b]) :
    (autoFixPair fg bg target).length ≤ 24 ∧
    List.Chain' (fun s t => lumOrZero t ≤ lumOrZero s)
      (fg :: autoFixPair fg bg target) ∧
    ∀ s ∈ autoFixPair fg bg target,
      ∃ r' g' b' : ℤ, hexToRgb s = [some r', some g', some b'] := by
  obtain ⟨h1, h2, h3⟩ := autoFixLoop_spec bg target 24 0 (by omega) fg
    (ratioOrZero (contrastRatio fg bg)) r g b hfg
  rw [autoFixPair]
  exact ⟨by simpa using h1, h2, h3⟩

/-- Witness for C4 at the default body-text pair of the source
(`--text` fallback `#222222` against `--brand-muted` fallback `#f7f4ef`,
target ratio `4.5`). -/
theorem autoFix_pair_bounded_monotone_witness :
    hexToRgb "#222222" = [some 34, some 34, some 34] ∧
    ((autoFixPair "#222222" "#f7f4ef" 4.5).length ≤ 24 ∧
     List.Chain' (fun s t => lumOrZero t ≤ lumOrZero s)
       ("#222222" :: autoFixPair "#222222" "#f7f4ef" 4.5) ∧
     ∀ s ∈ autoFixPair "#222222" "#f7f4ef" 4.5,
       ∃ r' g' b' : ℤ, hexToRgb s = [some r', some g', some b']) :=
  ⟨by decide, autoFix_pair_bounded_monotone "#222222" "#f7f4ef" 4.5 34 34 34 (by decide)⟩

end LorealChat
